import Mathlib

/-!
Verification of the singleProxy gateway core against its specification.

The Go sources are shallowly embedded: bytes are `Nat` values below 256,
Go maps become association lists, channels become bounded lists, and the
raw-connection response writer's socket output becomes a list of output
items mirroring each `fmt.Fprintf`/`Write` call.
-/

/-- Message kind constants from pkg/protocol (message.go). -/
def MSG_TYPE_HTTP_REQ : Nat := 1

/-- Kind 2: HTTP response head. -/
def MSG_TYPE_HTTP_RES : Nat := 2

/-- Kind 3: HTTP response body chunk; empty payload is the end-of-stream sentinel. -/
def MSG_TYPE_HTTP_RES_CHUNK : Nat := 3

/-- `TunnelMessage` from pkg/protocol: ID is a Go uint64, Type a uint8,
Payload raw bytes.  Bytes are modelled as `Nat` values below 256. -/
structure TunnelMessage where
  id : Nat
  type : Nat
  payload : List Nat
deriving DecidableEq, Repr

/-- Big-endian 8-byte encoding of a uint64, as written by
`binary.Write(buf, binary.BigEndian, msg.ID)`. -/
def toBE8 (n : Nat) : List Nat :=
  [n / 2 ^ 56 % 256, n / 2 ^ 48 % 256, n / 2 ^ 40 % 256, n / 2 ^ 32 % 256,
   n / 2 ^ 24 % 256, n / 2 ^ 16 % 256, n / 2 ^ 8 % 256, n % 256]

/-- Big-endian decoding of bytes into a Nat, as done by
`binary.BigEndian.Uint64(data[:8])`. -/
def fromBE8 (bs : List Nat) : Nat :=
  bs.foldl (fun a b => a * 256 + b) 0

/-- `SerializeTunnelMessage` (pkg/protocol/message.go): 8-byte big-endian id,
one type byte, then the raw payload.  The Go error return is unreachable
(writes to a `bytes.Buffer` cannot fail), so the embedding is total. -/
def SerializeTunnelMessage (msg : TunnelMessage) : List Nat :=
  toBE8 msg.id ++ msg.type :: msg.payload

/-- `DeserializeTunnelMessage` (pkg/protocol/message.go): inputs shorter than
9 bytes are rejected (`"message too short"`); otherwise the first 8 bytes are
the id, byte 8 the type, the rest the payload.  The length guard is the
match fallthrough. -/
def DeserializeTunnelMessage : List Nat → Except String TunnelMessage
  | b0 :: b1 :: b2 :: b3 :: b4 :: b5 :: b6 :: b7 :: t :: payload =>
      .ok { id := fromBE8 [b0, b1, b2, b3, b4, b5, b6, b7], type := t, payload := payload }
  | _ => .error "message too short"

theorem fromBE8_toBE8 (n : Nat) (h : n < 2 ^ 64) : fromBE8 (toBE8 n) = n := by
  simp only [toBE8, fromBE8, List.foldl]
  omega

theorem toBE8_fromBE8 (a b c d e f g h' : Nat)
    (ha : a < 256) (hb : b < 256) (hc : c < 256) (hd : d < 256)
    (he : e < 256) (hf : f < 256) (hg : g < 256) (hh : h' < 256) :
    toBE8 (fromBE8 [a, b, c, d, e, f, g, h']) = [a, b, c, d, e, f, g, h'] := by
  simp only [toBE8, fromBE8, List.foldl, List.cons.injEq, and_true]
  omega

/-- C6: For every TunnelMessage (64-bit id, byte kind, any payload),
deserializing the serialization yields the message back exactly; and for
every byte string of at least 9 bytes, deserialization succeeds and
serializing the result yields the original bytes: decode is the exact
inverse of encode on 9+-byte inputs. -/
theorem tunnel_message_codec_roundtrip :
    (∀ msg : TunnelMessage, msg.id < 2 ^ 64 → msg.type < 256 →
      DeserializeTunnelMessage (SerializeTunnelMessage msg) = .ok msg) ∧
    (∀ data : List Nat, 9 ≤ data.length → (∀ x ∈ data, x < 256) →
      ∃ msg, DeserializeTunnelMessage data = .ok msg ∧
        SerializeTunnelMessage msg = data) := by
  constructor
  · intro msg hid _
    obtain ⟨i, t, p⟩ := msg
    simp only [SerializeTunnelMessage, toBE8, List.cons_append, List.nil_append,
      DeserializeTunnelMessage]
    rw [show fromBE8 [i / 2 ^ 56 % 256, i / 2 ^ 48 % 256, i / 2 ^ 40 % 256,
        i / 2 ^ 32 % 256, i / 2 ^ 24 % 256, i / 2 ^ 16 % 256, i / 2 ^ 8 % 256,
        i % 256] = fromBE8 (toBE8 i) from rfl, fromBE8_toBE8 i hid]
  · intro data hlen hbytes
    match data with
    | b0 :: b1 :: b2 :: b3 :: b4 :: b5 :: b6 :: b7 :: t :: payload =>
      refine ⟨TunnelMessage.mk (fromBE8 [b0, b1, b2, b3, b4, b5, b6, b7]) t payload,
        rfl, ?_⟩
      simp only [SerializeTunnelMessage]
      rw [toBE8_fromBE8 b0 b1 b2 b3 b4 b5 b6 b7
        (hbytes b0 (by simp)) (hbytes b1 (by simp)) (hbytes b2 (by simp))
        (hbytes b3 (by simp)) (hbytes b4 (by simp)) (hbytes b5 (by simp))
        (hbytes b6 (by simp)) (hbytes b7 (by simp))]
      rfl

/-- Closed witness for the codec roundtrip at concrete inputs. -/
theorem tunnel_message_codec_roundtrip_witness :
    DeserializeTunnelMessage
        (SerializeTunnelMessage { id := 5, type := 2, payload := [7, 8] }) =
      .ok { id := 5, type := 2, payload := [7, 8] } ∧
    ∃ msg, DeserializeTunnelMessage [0, 0, 0, 0, 0, 0, 1, 4, 3, 9] = .ok msg ∧
      SerializeTunnelMessage msg = [0, 0, 0, 0, 0, 0, 1, 4, 3, 9] :=
  ⟨tunnel_message_codec_roundtrip.1 _ (by decide) (by decide),
   tunnel_message_codec_roundtrip.2 _ (by decide) (by decide)⟩

/-! ## Association-list embedding of Go maps -/

/-- Go map lookup `m[k]` (the `ok` form): first matching entry, if any. -/
def alget {κ α : Type} [DecidableEq κ] : List (κ × α) → κ → Option α
  | [], _ => none
  | (k', v) :: t, k => if k' = k then some v else alget t k

/-- Go map assignment `m[k] = v`: replace the entry if present, else append. -/
def aset {κ α : Type} [DecidableEq κ] (l : List (κ × α)) (k : κ) (v : α) :
    List (κ × α) :=
  if (alget l k).isSome then
    l.map fun e => if e.1 = k then (k, v) else e
  else l ++ [(k, v)]

/-- Go `delete(m, k)`. -/
def adel {κ α : Type} [DecidableEq κ] (l : List (κ × α)) (k : κ) : List (κ × α) :=
  l.filter fun e => !(e.1 = k : Bool)

theorem alget_map_set {κ α : Type} [DecidableEq κ]
    (l : List (κ × α)) (k : κ) (v : α) (h : (alget l k).isSome = true) :
    alget (l.map fun e => if e.1 = k then (k, v) else e) k = some v := by
  induction l with
  | nil => simp [alget] at h
  | cons e t ih =>
    obtain ⟨k', v'⟩ := e
    simp only [List.map_cons]
    by_cases he : k' = k
    · subst he
      rw [show (if ((k', v') : κ × α).1 = k' then (k', v) else (k', v')) = (k', v)
        from if_pos rfl]
      simp [alget]
    · rw [show (if ((k', v') : κ × α).1 = k then (k, v) else (k', v')) = (k', v')
        from if_neg he]
      simp only [alget, if_neg he] at h ⊢
      exact ih h

theorem alget_append_single {κ α : Type} [DecidableEq κ]
    (l : List (κ × α)) (k : κ) (v : α) (h : alget l k = none) :
    alget (l ++ [(k, v)]) k = some v := by
  induction l with
  | nil => simp [alget]
  | cons e t ih =>
    obtain ⟨k', v'⟩ := e
    by_cases he : k' = k
    · simp [alget, he] at h
    · simp only [alget, if_neg he] at h
      simp only [List.cons_append, alget, if_neg he]
      exact ih h

theorem alget_aset_self {κ α : Type} [DecidableEq κ]
    (l : List (κ × α)) (k : κ) (v : α) : alget (aset l k v) k = some v := by
  unfold aset
  by_cases h : (alget l k).isSome
  · simp only [h, if_true]
    exact alget_map_set l k v h
  · simp only [h, Bool.false_eq_true, if_false]
    exact alget_append_single l k v (Option.not_isSome_iff_eq_none.mp h)

theorem alget_adel_self {κ α : Type} [DecidableEq κ]
    (l : List (κ × α)) (k : κ) : alget (adel l k) k = none := by
  induction l with
  | nil => rfl
  | cons e t ih =>
    obtain ⟨k', v'⟩ := e
    by_cases he : k' = k
    · simpa [adel, he] using ih
    · simpa [adel, alget, he] using ih

/-! ## The raw-connection response writer (httpResponseWriter, part_004) -/

/-- One item written to the underlying TCP connection by `httpResponseWriter`.
`statusLine code` stands for `fmt.Fprintf(conn, "HTTP/1.1 %d %s\r\n", ...)`
(the status text is a function of the code), `headerLine`/`blankLine` for the
header block, and `body` for a `conn.Write` of raw bytes. -/
inductive OutItem where
  | statusLine (code : Nat)
  | headerLine (key value : String)
  | blankLine
  | body (data : List Nat)
deriving DecidableEq, Repr

/-- The header block as emitted by `WriteHeader`'s nested loops over the
header map: one `headerLine` per value of each key. -/
def renderHeaderLines (h : List (String × List String)) : List OutItem :=
  (h.map fun kv => kv.2.map fun v => OutItem.headerLine kv.1 v).flatten

/-- `httpResponseWriter` (part_004): wraps a raw TCP connection; `out` is the
byte-level traffic already written to the socket, itemised. -/
structure httpResponseWriter where
  header : List (String × List String)
  statusCode : Nat
  headerWritten : Bool
  out : List OutItem
deriving DecidableEq, Repr

/-- A freshly created writer, as built in `handleHTTPConnection`
(`&httpResponseWriter{conn: conn, header: make(http.Header)}`). -/
def httpResponseWriter.fresh : httpResponseWriter :=
  { header := [], statusCode := 0, headerWritten := false, out := [] }

/-- `httpResponseWriter.WriteHeader`: a no-op once the head was written;
otherwise records the status and emits status line, header block and the
blank line. -/
def httpResponseWriter.writeHeader (w : httpResponseWriter) (code : Nat) :
    httpResponseWriter :=
  if w.headerWritten then w
  else
    { w with
      statusCode := code, headerWritten := true,
      out := w.out ++ OutItem.statusLine code :: (renderHeaderLines w.header ++ [OutItem.blankLine]) }

/-- `httpResponseWriter.Write`: writes a 200 head first if none was written,
then the body bytes. -/
def httpResponseWriter.write (w : httpResponseWriter) (data : List Nat) :
    httpResponseWriter :=
  let w' := if w.headerWritten then w else w.writeHeader 200
  { w' with out := w'.out ++ [OutItem.body data] }

/-- Bytes of an ASCII string, for bodies written from Go string literals. -/
def strBytes (s : String) : List Nat := s.data.map Char.toNat

/-- The header adjustment `http.Error` performs before writing: delete
Content-Length, set Content-Type and X-Content-Type-Options. -/
def httpErrorHeader (h : List (String × List String)) :
    List (String × List String) :=
  aset (aset (adel h "Content-Length") "Content-Type" ["text/plain; charset=utf-8"])
    "X-Content-Type-Options" ["nosniff"]

/-- `http.Error(w, msg, code)` from the Go standard library as used by the
handlers: sets the three error headers, writes the head via `WriteHeader`
(a no-op when the head is already out) and prints `msg` plus a newline to
the body. -/
def httpError (w : httpResponseWriter) (msg : String) (code : Nat) :
    httpResponseWriter :=
  let w' := { w with header := httpErrorHeader w.header }
  let w' := w'.writeHeader code
  w'.write (strBytes (msg ++ "\x0a"))

/-! ## Pending-request table (streamHandlers) and the read-loop step -/

/-- `streamHandler` (pkg/server/server.go): the per-RequestId sink.
`doneClosed` models whether the one-shot `done` channel has been closed.
`viaKey` is ghost routing information — the tunnel key whose transport the
request was dispatched through; the Go struct stores no such field, and no
step function below reads it. -/
structure streamHandler where
  writer : httpResponseWriter
  doneClosed : Bool
  viaKey : String
deriving DecidableEq, Repr

/-- Result of `protocol.DeserializeHTTPResponse` on a kind-2 payload: either
a parse error or a status code with a header map.  The HTTP wire parser
itself is the Go standard library, an external collaborator. -/
inductive ResHeadParse where
  | err
  | ok (status : Nat) (headers : List (String × List String))
deriving DecidableEq, Repr

/-- `for k, v := range resp.Header { handler.writer.Header()[k] = v }`. -/
def mergeHeaders (base hdrs : List (String × List String)) :
    List (String × List String) :=
  hdrs.foldl (fun acc kv => aset acc kv.1 kv.2) base

/-- One iteration of `clientReadLoop`'s message processing
(pkg/server/handlers.go, lines 99–174), applied to the pending table.
`parseRes` stands for `protocol.DeserializeHTTPResponse`.
  * unknown id: the message is ignored;
  * kind 2, parse error: the sink's `done` is closed and it is deleted;
  * kind 2, parsed: response headers are copied into the writer's header
    map, `WriteHeader(status)` is called, the sink stays registered;
  * kind 3, non-empty payload: the bytes are written to the writer;
  * kind 3, empty payload: `done` is closed and the sink is deleted;
  * any other kind: ignored. -/
def processTunnelMessage (parseRes : List Nat → ResHeadParse)
    (tbl : List (Nat × streamHandler)) (msg : TunnelMessage) :
    List (Nat × streamHandler) :=
  match alget tbl msg.id with
  | none => tbl
  | some handler =>
    if msg.type = MSG_TYPE_HTTP_RES then
      match parseRes msg.payload with
      | .err => adel tbl msg.id
      | .ok status hdrs =>
        let w := handler.writer
        let w := { w with header := mergeHeaders w.header hdrs }
        let w := w.writeHeader status
        aset tbl msg.id { handler with writer := w }
    else if msg.type = MSG_TYPE_HTTP_RES_CHUNK then
      if msg.payload.length > 0 then
        aset tbl msg.id { handler with writer := handler.writer.write msg.payload }
      else
        adel tbl msg.id
    else tbl

/-! ## Tunnel registration and agent replacement (server.go, lines 345–376) -/

/-- Registry and pending-table state touched by `handleTunnelRegistration`.
WebSocket connections are identified by opaque numbers; `closedConns`
records every connection whose `Close()` was called. -/
structure TunnelRegState where
  clientConns : List (String × Nat)
  streamHandlers : List (Nat × streamHandler)
  closedConns : List Nat
deriving DecidableEq, Repr

/-- The replacement cleanup loop: every pending handler whose `done` is not
yet closed is closed and deleted — regardless of which tunnel key its
request was routed through (the table keeps no key association).  Handlers
whose `done` already fired are skipped (kept). -/
def cleanupPendingHandlers (tbl : List (Nat × streamHandler)) :
    List (Nat × streamHandler) :=
  tbl.filter fun e => e.2.doneClosed

/-- The registration step of `handleTunnelRegistration` after a successful
upgrade (key already checked non-empty): if the key is occupied, the old
connection is closed and the cleanup loop runs over the whole pending
table; then the key is pointed at the new connection. -/
def handleTunnelRegistration (st : TunnelRegState) (key : String)
    (newConn : Nat) : TunnelRegState :=
  match alget st.clientConns key with
  | some oldConn =>
      { clientConns := aset st.clientConns key newConn,
        streamHandlers := cleanupPendingHandlers st.streamHandlers,
        closedConns := st.closedConns ++ [oldConn] }
  | none =>
      { st with clientConns := aset st.clientConns key newConn }

/-- A fresh sink (created just before dispatching the kind-1 frame). -/
def freshHandler (key : String) : streamHandler :=
  { writer := httpResponseWriter.fresh, doneClosed := false, viaKey := key }

/-- C1 (code_bug evidence): replacing the agent for key `"a"` also fails and
removes the pending sink of request 2, which was routed through key `"b"`'s
agent — `"b"`'s registry entry survives untouched, yet its sink is gone.
The claim (only sinks waiting on the replaced entry are failed) is violated:
the cleanup loop removes every not-yet-done sink in the global table.  The
prior agent's transport is indeed closed (conn 1 lands in `closedConns`). -/
theorem tunnel_registration_fails_unrelated_sink :
    (handleTunnelRegistration
        { clientConns := [("a", 1), ("b", 2)],
          streamHandlers := [(2, freshHandler "b")],
          closedConns := [] } "a" 3) =
      { clientConns := [("a", 3), ("b", 2)],
        streamHandlers := [],
        closedConns := [1] } ∧
    (freshHandler "b").viaKey ≠ "a" := by
  constructor
  · rfl
  · decide

/-! ## C2: duplicate HTTP_RES_HEAD frames -/

/-- C2 counterexample: after a kind-2 frame has been applied to request 1,
a second kind-2 frame for the same id does NOT terminate the sink — it is
still registered in the pending table afterwards and its `done` signal has
not fired, refuting "any subsequent kind-2 frame ... terminates r's sink
(the sink is failed and removed from the pending table)". -/
theorem duplicate_res_head_sink_survives :
    ((alget
        (processTunnelMessage (fun _ => ResHeadParse.ok 200 [])
          (processTunnelMessage (fun _ => ResHeadParse.ok 200 [])
            [(1, freshHandler "k")] { id := 1, type := 2, payload := [] })
          { id := 1, type := 2, payload := [] })
        1).map streamHandler.doneClosed) = some false := by
  decide

/-- C2 (amended): once a sink's head has been written, a further kind-2
frame for the same RequestId merely merges the parsed headers into the
writer's header map; the wire output is unchanged (`WriteHeader` ignores
the late call, so at most one status/header block ever reaches the client),
the `done` signal does not fire, and the sink stays in the pending table. -/
theorem duplicate_res_head_merges_headers_only
    (parseRes : List Nat → ResHeadParse) (tbl : List (Nat × streamHandler))
    (rid : Nat) (h : streamHandler) (status : Nat)
    (hdrs : List (String × List String)) (payload : List Nat)
    (hget : alget tbl rid = some h)
    (hw : h.writer.headerWritten = true)
    (hp : parseRes payload = .ok status hdrs) :
    ∃ h', alget (processTunnelMessage parseRes tbl
        { id := rid, type := MSG_TYPE_HTTP_RES, payload := payload }) rid = some h' ∧
      h'.writer.out = h.writer.out ∧
      h'.writer.statusCode = h.writer.statusCode ∧
      h'.doneClosed = h.doneClosed ∧
      h'.writer.header = mergeHeaders h.writer.header hdrs := by
  refine ⟨{ h with writer := { h.writer with
    header := mergeHeaders h.writer.header hdrs } }, ?_, rfl, rfl, rfl, rfl⟩
  simp only [processTunnelMessage, hget, hp, MSG_TYPE_HTTP_RES, if_pos rfl,
    httpResponseWriter.writeHeader, hw, if_true]
  exact alget_aset_self tbl rid _

/-- Closed witness for the amended C2 theorem at a concrete state. -/
theorem duplicate_res_head_merges_headers_only_witness :
    ∃ h', alget (processTunnelMessage (fun _ => ResHeadParse.ok 404 [])
        [(7, { writer := { header := [], statusCode := 200,
                           headerWritten := true,
                           out := [OutItem.statusLine 200] },
               doneClosed := false, viaKey := "k" })]
        { id := 7, type := MSG_TYPE_HTTP_RES, payload := [3] }) 7 = some h' ∧
      h'.writer.out = [OutItem.statusLine 200] ∧
      h'.writer.statusCode = 200 ∧
      h'.doneClosed = false ∧
      h'.writer.header = mergeHeaders [] [] :=
  duplicate_res_head_merges_headers_only (fun _ => ResHeadParse.ok 404 [])
    [(7, { writer := { header := [], statusCode := 200, headerWritten := true,
                       out := [OutItem.statusLine 200] },
           doneClosed := false, viaKey := "k" })]
    7
    { writer := { header := [], statusCode := 200, headerWritten := true,
                  out := [OutItem.statusLine 200] },
      doneClosed := false, viaKey := "k" }
    404 [] [3] rfl rfl rfl

/-! ## C3: the 90-second deadline branch -/

/-- The `<-timer.C` branch of `handlePublicHTTPRequest` (handlers.go lines
397–401): delete the sink from the pending table, then
`http.Error(w, "Gateway Timeout", 504)`. -/
def handleStreamTimeout (tbl : List (Nat × streamHandler)) (requestID : Nat)
    (w : httpResponseWriter) : List (Nat × streamHandler) × httpResponseWriter :=
  (adel tbl requestID, httpError w "Gateway Timeout" 504)

/-- C3 counterexample: when the deadline fires after headers (and body
bytes) were already streamed, the code does not merely truncate the body:
`http.Error` appends the text "Gateway Timeout\n" to the body (the status
line is unchanged, but extra bytes reach the client). -/
theorem timeout_after_head_appends_error_text :
    (handleStreamTimeout [] 1
        ((httpResponseWriter.fresh.writeHeader 200).write [72, 105])).2.out ≠
      ((httpResponseWriter.fresh.writeHeader 200).write [72, 105]).out ∧
    (handleStreamTimeout [] 1
        ((httpResponseWriter.fresh.writeHeader 200).write [72, 105])).2.out =
      ((httpResponseWriter.fresh.writeHeader 200).write [72, 105]).out ++
        [OutItem.body (strBytes "Gateway Timeout\x0a")] ∧
    (handleStreamTimeout [] 1
        ((httpResponseWriter.fresh.writeHeader 200).write [72, 105])).2.statusCode =
      200 := by
  refine ⟨?_, ?_, ?_⟩ <;> decide

/-- C3 (amended): on deadline expiry the handler deregisters the sink and
then calls `http.Error` with 504: if no headers were written yet the
response is a 504 head followed by the error text; if headers were already
written the status cannot change, but the text "Gateway Timeout\n" is
appended to the body (the stream is cut short otherwise, since the sink is
gone). -/
theorem timeout_deregisters_then_504_or_appends
    (tbl : List (Nat × streamHandler)) (requestID : Nat)
    (w : httpResponseWriter) :
    alget (handleStreamTimeout tbl requestID w).1 requestID = none ∧
    (w.headerWritten = false →
      (handleStreamTimeout tbl requestID w).2.statusCode = 504 ∧
      (handleStreamTimeout tbl requestID w).2.out =
        w.out ++ OutItem.statusLine 504 ::
          (renderHeaderLines (httpErrorHeader w.header) ++ [OutItem.blankLine]) ++
          [OutItem.body (strBytes "Gateway Timeout\x0a")]) ∧
    (w.headerWritten = true →
      (handleStreamTimeout tbl requestID w).2.statusCode = w.statusCode ∧
      (handleStreamTimeout tbl requestID w).2.out =
        w.out ++ [OutItem.body (strBytes "Gateway Timeout\x0a")]) := by
  refine ⟨alget_adel_self tbl requestID, ?_, ?_⟩
  · intro hw
    simp [handleStreamTimeout, httpError, httpResponseWriter.writeHeader,
      httpResponseWriter.write, hw]
  · intro hw
    simp [handleStreamTimeout, httpError, httpResponseWriter.writeHeader,
      httpResponseWriter.write, hw]

/-- Closed witness for the amended C3 theorem: fresh writer, no head yet. -/
theorem timeout_deregisters_then_504_or_appends_witness :
    alget (handleStreamTimeout [(4, freshHandler "k")] 4
        httpResponseWriter.fresh).1 4 = none ∧
    (handleStreamTimeout [(4, freshHandler "k")] 4
        httpResponseWriter.fresh).2.statusCode = 504 :=
  ⟨(timeout_deregisters_then_504_or_appends [(4, freshHandler "k")] 4
      httpResponseWriter.fresh).1,
   ((timeout_deregisters_then_504_or_appends [(4, freshHandler "k")] 4
      httpResponseWriter.fresh).2.1 rfl).1⟩

/-! ## C4: the long-poll endpoint GET /http-tunnel/poll/{key} (part_005) -/

/-- What the 30-second long-poll select observed: a frame from `pollChan`,
the timer firing, or client cancellation. -/
inductive PollOutcome where
  | msg (m : TunnelMessage)
  | timeout
  | cancelled
deriving DecidableEq, Repr

/-- `handleHTTPTunnelPoll` (part_005, lines 538–602) on the response writer:
unknown key → `http.Error` 404; otherwise the handler sets
`Content-Type: application/json`, then responds 200 with one serialized
frame, 204 on the 30 s timeout, or returns without writing on
cancellation.  (`lastSeen` bookkeeping is omitted: no claim depends on it.) -/
def handleHTTPTunnelPoll (registered : Bool) (outcome : PollOutcome)
    (w : httpResponseWriter) : httpResponseWriter :=
  if !registered then
    httpError w "Tunnel not registered. Please register first" 404
  else
    let w' := { w with header := aset w.header "Content-Type" ["application/json"] }
    match outcome with
    | .msg m => (w'.writeHeader 200).write (SerializeTunnelMessage m)
    | .timeout => w'.writeHeader 204
    | .cancelled => w'

/-- C4 counterexample: a successful poll responds 200 with the frame bytes,
but its Content-Type header is `application/json`, not the claimed
`application/octet-stream` (the handler sets json before the select). -/
theorem poll_content_type_is_json :
    (OutItem.headerLine "Content-Type" "application/octet-stream" ∈
        (handleHTTPTunnelPoll true (.msg { id := 1, type := 1, payload := [] })
          httpResponseWriter.fresh).out) = False ∧
    OutItem.headerLine "Content-Type" "application/json" ∈
      (handleHTTPTunnelPoll true (.msg { id := 1, type := 1, payload := [] })
        httpResponseWriter.fresh).out ∧
    (handleHTTPTunnelPoll true (.msg { id := 1, type := 1, payload := [] })
        httpResponseWriter.fresh).statusCode = 200 := by
  refine ⟨?_, ?_, ?_⟩
  · simp only [eq_iff_iff, iff_false]
    decide
  · decide
  · decide

/-- C4 (amended): for a GET poll on an unregistered key the response is 404;
if a frame arrives during the wait the response is 200 whose body is exactly
that one frame's serialized bytes, under header
`Content-Type: application/json`; if the 30 s timer fires the response
is 204. -/
theorem poll_handler_responses (w : httpResponseWriter) (m : TunnelMessage)
    (outcome : PollOutcome) (hw : w.headerWritten = false) :
    ((handleHTTPTunnelPoll false outcome w).statusCode = 404) ∧
    ((handleHTTPTunnelPoll true (.msg m) w).statusCode = 200 ∧
      (handleHTTPTunnelPoll true (.msg m) w).out =
        w.out ++ OutItem.statusLine 200 ::
          (renderHeaderLines (aset w.header "Content-Type" ["application/json"]) ++
            [OutItem.blankLine]) ++
          [OutItem.body (SerializeTunnelMessage m)]) ∧
    ((handleHTTPTunnelPoll true .timeout w).statusCode = 204 ∧
      (handleHTTPTunnelPoll true .timeout w).out =
        w.out ++ OutItem.statusLine 204 ::
          (renderHeaderLines (aset w.header "Content-Type" ["application/json"]) ++
            [OutItem.blankLine])) := by
  refine ⟨?_, ⟨?_, ?_⟩, ?_, ?_⟩ <;>
    simp [handleHTTPTunnelPoll, httpError, httpResponseWriter.writeHeader,
      httpResponseWriter.write, hw]

/-- Closed witness for the amended C4 theorem on a fresh writer. -/
theorem poll_handler_responses_witness :
    (handleHTTPTunnelPoll false .timeout httpResponseWriter.fresh).statusCode = 404 ∧
    (handleHTTPTunnelPoll true (.msg { id := 2, type := 1, payload := [5] })
        httpResponseWriter.fresh).statusCode = 200 ∧
    (handleHTTPTunnelPoll true .timeout httpResponseWriter.fresh).statusCode = 204 :=
  ⟨(poll_handler_responses httpResponseWriter.fresh
      { id := 2, type := 1, payload := [5] } .timeout rfl).1,
   (poll_handler_responses httpResponseWriter.fresh
      { id := 2, type := 1, payload := [5] } .timeout rfl).2.1.1,
   (poll_handler_responses httpResponseWriter.fresh
      { id := 2, type := 1, payload := [5] } .timeout rfl).2.2.1⟩

/-! ## C5: long-poll dispatch backpressure (part_005, lines 386–411) -/

/-- The non-blocking send `select { case httpClient.pollChan <- &msg: ...
default: ... }` on the 10-slot channel created by
`handleHTTPTunnelRegister` (`make(chan *protocol.TunnelMessage, 10)`). -/
def trySendPollChan (ch : List TunnelMessage) (m : TunnelMessage) :
    Option (List TunnelMessage) :=
  if ch.length < 10 then some (ch ++ [m]) else none

/-- Result of attempting long-poll dispatch for a public request. -/
structure LongPollDispatchResult where
  streamHandlers : List (Nat × streamHandler)
  pollChan : List TunnelMessage
  writer : httpResponseWriter
  forwarded : Bool
deriving DecidableEq, Repr

/-- The long-poll branch of `handlePublicHTTPRequest`: offer the kind-1
frame to the outbox; on success continue to the wait; on a full channel
delete the just-registered sink and respond
`http.Error(w, "Tunnel client busy", 503)`. -/
def dispatchViaLongPoll (tbl : List (Nat × streamHandler)) (requestID : Nat)
    (ch : List TunnelMessage) (m : TunnelMessage) (w : httpResponseWriter) :
    LongPollDispatchResult :=
  match trySendPollChan ch m with
  | some ch' => { streamHandlers := tbl, pollChan := ch', writer := w, forwarded := true }
  | none =>
      { streamHandlers := adel tbl requestID, pollChan := ch,
        writer := httpError w "Tunnel client busy" 503, forwarded := false }

/-- C5: when the 10-slot outbox is already full, the non-blocking enqueue
fails, the just-created sink is deregistered, the public request ends with
status 503 and the kind-1 frame is not enqueued (the outbox is unchanged). -/
theorem longpoll_outbox_full_yields_503 (tbl : List (Nat × streamHandler))
    (requestID : Nat) (ch : List TunnelMessage) (m : TunnelMessage)
    (w : httpResponseWriter) (hfull : 10 ≤ ch.length)
    (hw : w.headerWritten = false) :
    (dispatchViaLongPoll tbl requestID ch m w).forwarded = false ∧
    (dispatchViaLongPoll tbl requestID ch m w).pollChan = ch ∧
    alget (dispatchViaLongPoll tbl requestID ch m w).streamHandlers requestID =
      none ∧
    (dispatchViaLongPoll tbl requestID ch m w).writer.statusCode = 503 := by
  have hns : ¬ ch.length < 10 := by omega
  refine ⟨?_, ?_, ?_, ?_⟩ <;>
    simp [dispatchViaLongPoll, trySendPollChan, hns, alget_adel_self,
      httpError, httpResponseWriter.writeHeader, httpResponseWriter.write, hw]

/-- Closed witness for C5: a concrete full outbox (10 queued frames). -/
theorem longpoll_outbox_full_yields_503_witness :
    (dispatchViaLongPoll [(3, freshHandler "g")] 3
        (List.replicate 10 { id := 0, type := 1, payload := [] })
        { id := 3, type := 1, payload := [] }
        httpResponseWriter.fresh).forwarded = false ∧
    (dispatchViaLongPoll [(3, freshHandler "g")] 3
        (List.replicate 10 { id := 0, type := 1, payload := [] })
        { id := 3, type := 1, payload := [] }
        httpResponseWriter.fresh).pollChan =
      List.replicate 10 { id := 0, type := 1, payload := [] } ∧
    alget (dispatchViaLongPoll [(3, freshHandler "g")] 3
        (List.replicate 10 { id := 0, type := 1, payload := [] })
        { id := 3, type := 1, payload := [] }
        httpResponseWriter.fresh).streamHandlers 3 = none ∧
    (dispatchViaLongPoll [(3, freshHandler "g")] 3
        (List.replicate 10 { id := 0, type := 1, payload := [] })
        { id := 3, type := 1, payload := [] }
        httpResponseWriter.fresh).writer.statusCode = 503 :=
  longpoll_outbox_full_yields_503 [(3, freshHandler "g")] 3
    (List.replicate 10 { id := 0, type := 1, payload := [] })
    { id := 3, type := 1, payload := [] }
    httpResponseWriter.fresh (by decide) rfl

/-! ## C7: replay of peeked bytes (prefixedConn, part_004) -/

/-- `prefixedConn` (part_004): wraps the accepted socket with the bytes the
protocol dispatcher already peeked.  `pfx` is the Go `prefix` field (the
word `prefix` is reserved in Lean); `socket` is the byte stream still to be
delivered by the underlying connection. -/
structure prefixedConn where
  pfx : List Nat
  prefixRead : Bool
  socket : List Nat
deriving DecidableEq, Repr

/-- `prefixedConn.Read` with a caller buffer of capacity `cap`: while the
prefix is unread and non-empty, `copy` hands out `min cap |prefix|` prefix
bytes, trimming the prefix (or marking it read when fully copied);
otherwise the read delegates to the underlying socket. -/
def prefixedConn.read (pc : prefixedConn) (cap : Nat) :
    List Nat × prefixedConn :=
  if !pc.prefixRead && pc.pfx.length > 0 then
    let n := min cap pc.pfx.length
    if n < pc.pfx.length then
      (pc.pfx.take n, { pc with pfx := pc.pfx.drop n })
    else
      (pc.pfx.take n, { pc with prefixRead := true })
  else
    let m := min cap pc.socket.length
    (pc.socket.take m, { pc with socket := pc.socket.drop m })

/-- A sequence of reads with the given buffer capacities; returns the
concatenation of all delivered bytes and the final connection state. -/
def prefixedConn.readMany (pc : prefixedConn) :
    List Nat → List Nat × prefixedConn
  | [] => ([], pc)
  | c :: cs =>
      let r := pc.read c
      let rs := r.2.readMany cs
      (r.1 ++ rs.1, rs.2)

/-- The bytes a downstream reader has yet to observe: the pending prefix
(when still active) followed by the remaining socket bytes. -/
def prefixedConn.rest (pc : prefixedConn) : List Nat :=
  (if pc.prefixRead then [] else pc.pfx) ++ pc.socket

theorem prefixedConn_read_rest (pc : prefixedConn) (cap : Nat) :
    (pc.read cap).1 ++ (pc.read cap).2.rest = pc.rest := by
  obtain ⟨p, r, s⟩ := pc
  cases r with
  | true => simp [prefixedConn.read, prefixedConn.rest]
  | false =>
    by_cases hp : p.length > 0
    · by_cases hn : min cap p.length < p.length
      · simp only [prefixedConn.read, prefixedConn.rest, hp, hn, Bool.not_false,
          decide_True, Bool.true_and, if_true, Bool.false_eq_true, if_false]
        rw [← List.append_assoc, List.take_append_drop]
      · have hm : min cap p.length = p.length := by omega
        simp [prefixedConn.read, prefixedConn.rest, hp, hn, hm]
    · have hz : p = [] := List.length_eq_zero.mp (by omega)
      subst hz
      simp [prefixedConn.read, prefixedConn.rest]

theorem prefixedConn_readMany_rest (caps : List Nat) (pc : prefixedConn) :
    (pc.readMany caps).1 ++ (pc.readMany caps).2.rest = pc.rest := by
  induction caps generalizing pc with
  | nil => simp [prefixedConn.readMany]
  | cons c cs ih =>
    simp only [prefixedConn.readMany, List.append_assoc]
    rw [ih (pc.read c).2, prefixedConn_read_rest]

/-- C7: the downstream reader of a `prefixedConn` observes exactly the
peeked prefix followed by the remaining socket bytes: over any sequence of
reads (any buffer sizes), the delivered bytes followed by the not-yet-read
remainder equal `prefix ++ socket` — the prefix is handed out exactly once
(spread over as many reads as the buffers require) — and once the prefix
is consumed (`prefixRead`), every read delegates directly to the socket. -/
theorem prefixed_conn_replays_prefix_then_socket :
    (∀ (p s : List Nat) (caps : List Nat),
      (prefixedConn.readMany { pfx := p, prefixRead := false, socket := s } caps).1 ++
        (prefixedConn.readMany { pfx := p, prefixRead := false, socket := s }
          caps).2.rest = p ++ s) ∧
    (∀ (pc : prefixedConn) (cap : Nat), pc.prefixRead = true →
      pc.read cap = (pc.socket.take (min cap pc.socket.length),
        { pc with socket := pc.socket.drop (min cap pc.socket.length) })) := by
  constructor
  · intro p s caps
    have := prefixedConn_readMany_rest caps
      { pfx := p, prefixRead := false, socket := s }
    simpa [prefixedConn.rest] using this
  · intro pc cap hr
    simp [prefixedConn.read, hr]

/-- Closed witness for C7: a 3-byte prefix drained by 2-byte reads, then
socket reads; and a direct socket read in the `prefixRead` state. -/
theorem prefixed_conn_replays_prefix_then_socket_witness :
    (prefixedConn.readMany
        { pfx := [5, 6, 7], prefixRead := false, socket := [8, 9] }
        [2, 2, 2]).1 ++
      (prefixedConn.readMany
        { pfx := [5, 6, 7], prefixRead := false, socket := [8, 9] }
        [2, 2, 2]).2.rest = [5, 6, 7] ++ [8, 9] ∧
    prefixedConn.read { pfx := [5], prefixRead := true, socket := [8, 9] } 1 =
      ([8], { pfx := [5], prefixRead := true, socket := [9] }) :=
  ⟨prefixed_conn_replays_prefix_then_socket.1 [5, 6, 7] [8, 9] [2, 2, 2],
   by
    have := prefixed_conn_replays_prefix_then_socket.2
      { pfx := [5], prefixRead := true, socket := [8, 9] } 1 rfl
    simpa using this⟩

/-! ## C8 and C9: admission limiting and tunnel-key selection
(handlers.go: getIPLimiter / getKeyLimiter / handlePublicHTTPRequest) -/

/-- A `rate.Limiter` as configured by the server: `rate.NewLimiter(rate.Inf, 0)`
for the unlimited case, or a token bucket with its rate and burst. -/
inductive Limiter where
  | inf
  | bucket (rate : Int) (burst : Int)
deriving DecidableEq, Repr

/-- `Limiter.Allow()` observed at an instant when the bucket holds `tokens`
tokens: an infinite limiter always admits; a bucket admits iff it holds at
least one token (x/time/rate semantics; refill is time-based and abstracted
into `tokens`). -/
def Limiter.allow : Limiter → Nat → Bool
  | .inf, _ => true
  | .bucket _ _, tokens => decide (1 ≤ tokens)

/-- The limiter `getKeyLimiter` creates on first observation of a key:
config value ≤ 0 → unlimited; else rate `R`, burst `R*2`. -/
def newKeyLimiter (keyRateLimit : Int) : Limiter :=
  if keyRateLimit ≤ 0 then .inf else .bucket keyRateLimit (keyRateLimit * 2)

/-- The limiter `getIPLimiter` creates on first observation of an IP:
config value ≤ 0 → unlimited; else rate `R`, burst `R*2`. -/
def newIPLimiter (ipRateLimit : Int) : Limiter :=
  if ipRateLimit ≤ 0 then .inf else .bucket ipRateLimit (ipRateLimit * 2)

/-- Single-valued request headers; `Header.Get` yields "" when absent. -/
def headerGet (hs : List (String × String)) (k : String) : String :=
  match alget hs k with
  | some v => v
  | none => ""

/-- Key selection in `handlePublicHTTPRequest`:
`key := r.Header.Get("X-Tunnel-Key"); if key == "" { key = "default" }`. -/
def tunnelKeyOf (hs : List (String × String)) : String :=
  let key := headerGet hs "X-Tunnel-Key"
  if key = "" then "default" else key

/-- How the admission/routing prefix of `handlePublicHTTPRequest` ends. -/
inductive RouteOutcome where
  | respond (code : Nat)
  | dispatch (key : String) (viaWebSocket : Bool)
deriving DecidableEq, Repr

/-- The admission and lookup prefix of `handlePublicHTTPRequest` (part_005,
lines 221–310): consult the per-IP limiter; on refusal 429; select the
tunnel key; consult the per-key limiter; on refusal 429; look the key up in
both registries; neither → 502; else proceed to dispatch (WebSocket
preferred).  `ipTokens`/`keyTokens` are the token counts of the two
buckets consulted. -/
def publicRoute (ipRateLimit keyRateLimit : Int) (ipTokens keyTokens : Nat)
    (hs : List (String × String)) (wsKeys httpKeys : List String) :
    RouteOutcome :=
  if !((newIPLimiter ipRateLimit).allow ipTokens) then .respond 429
  else
    let key := tunnelKeyOf hs
    if !((newKeyLimiter keyRateLimit).allow keyTokens) then .respond 429
    else
      let wsExists := wsKeys.contains key
      let httpExists := httpKeys.contains key
      if !wsExists && !httpExists then .respond 502
      else .dispatch key wsExists

/-- C8: per-IP admission is consulted first, then per-key; the request
proceeds past admission iff both limiters admit, either refusal ending the
request with 429 before any tunnel work (the outcome is 429 for every
registry state); a limiter configured with rate 0 is unlimited (always
admits), and a positive configured rate R yields a bucket of rate R and
burst capacity 2R. -/
theorem admission_order_and_limiter_shape :
    (∀ (ipR keyR : Int) (ipT keyT : Nat) (hs : List (String × String))
        (ws hk : List String),
      (publicRoute ipR keyR ipT keyT hs ws hk ≠ .respond 429) ↔
        ((newIPLimiter ipR).allow ipT = true ∧
          (newKeyLimiter keyR).allow keyT = true)) ∧
    (∀ (ipR keyR : Int) (ipT keyT : Nat) (hs : List (String × String))
        (ws hk : List String),
      ((newIPLimiter ipR).allow ipT = false ∨
        (newKeyLimiter keyR).allow keyT = false) →
        publicRoute ipR keyR ipT keyT hs ws hk = .respond 429) ∧
    (newIPLimiter 0 = .inf ∧ newKeyLimiter 0 = .inf ∧
      ∀ t : Nat, Limiter.allow .inf t = true) ∧
    (∀ r : Int, 0 < r →
      newIPLimiter r = .bucket r (r * 2) ∧
      newKeyLimiter r = .bucket r (r * 2)) := by
  refine ⟨?_, ?_, ⟨rfl, rfl, fun _ => rfl⟩, ?_⟩
  · intro ipR keyR ipT keyT hs ws hk
    constructor
    · intro hne
      by_cases hip : (newIPLimiter ipR).allow ipT
      · by_cases hkey : (newKeyLimiter keyR).allow keyT
        · exact ⟨hip, hkey⟩
        · exfalso; apply hne
          simp only [publicRoute, hip, Bool.not_true, Bool.false_eq_true,
            if_false]
          simp [Bool.eq_false_iff.mpr hkey]
      · exfalso; apply hne
        simp [publicRoute, Bool.eq_false_iff.mpr hip]
    · rintro ⟨hip, hkey⟩
      simp only [publicRoute, hip, hkey, Bool.not_true, Bool.false_eq_true,
        if_false]
      split
      · simp
      · simp
  · intro ipR keyR ipT keyT hs ws hk hor
    cases hor with
    | inl h => simp [publicRoute, h]
    | inr h =>
      by_cases hip : (newIPLimiter ipR).allow ipT
      · simp [publicRoute, hip, h]
      · simp [publicRoute, Bool.eq_false_iff.mpr hip]
  · intro r hr
    have hnr : ¬ r ≤ 0 := by omega
    constructor <;> simp [newIPLimiter, newKeyLimiter, hnr]

/-- Closed witness for C8: rate 1 buckets, IP bucket holding one token and
key bucket empty → 429; and the concrete limiter shapes. -/
theorem admission_order_and_limiter_shape_witness :
    publicRoute 1 1 1 0 [] ["default"] [] = .respond 429 ∧
    newIPLimiter 0 = .inf ∧
    newIPLimiter 1 = .bucket 1 2 ∧ newKeyLimiter 1 = .bucket 1 2 :=
  ⟨admission_order_and_limiter_shape.2.1 1 1 1 0 [] ["default"] []
      (Or.inr (by decide)),
   admission_order_and_limiter_shape.2.2.1.1,
   by
    have := (admission_order_and_limiter_shape.2.2.2 1 (by decide)).1
    simpa using this,
   by
    have := (admission_order_and_limiter_shape.2.2.2 1 (by decide)).2
    simpa using this⟩

/-- C9: a missing `X-Tunnel-Key` header, or one with an empty value, makes
the handler behave exactly as if the header had the value "default": the
key used for key-rate admission and for the registry lookups is the literal
"default", never a missing tunnel. -/
theorem empty_tunnel_key_defaults :
    (∀ (hs : List (String × String)), headerGet hs "X-Tunnel-Key" = "" →
      tunnelKeyOf hs = "default") ∧
    (tunnelKeyOf [] = "default") ∧
    (∀ (ipR keyR : Int) (ipT keyT : Nat) (hs : List (String × String))
        (ws hk : List String), headerGet hs "X-Tunnel-Key" = "" →
      publicRoute ipR keyR ipT keyT hs ws hk =
        publicRoute ipR keyR ipT keyT [("X-Tunnel-Key", "default")] ws hk) := by
  refine ⟨?_, rfl, ?_⟩
  · intro hs h
    simp [tunnelKeyOf, h]
  · intro ipR keyR ipT keyT hs ws hk h
    have hk1 : tunnelKeyOf hs = "default" := by simp [tunnelKeyOf, h]
    have hk2 : tunnelKeyOf [("X-Tunnel-Key", "default")] = "default" := rfl
    simp only [publicRoute, hk1, hk2]

/-- Closed witness for C9: a request with an explicitly empty header. -/
theorem empty_tunnel_key_defaults_witness :
    tunnelKeyOf [("X-Tunnel-Key", "")] = "default" ∧
    publicRoute 0 0 0 0 [("X-Tunnel-Key", "")] ["default"] [] =
      publicRoute 0 0 0 0 [("X-Tunnel-Key", "default")] ["default"] [] :=
  ⟨empty_tunnel_key_defaults.1 [("X-Tunnel-Key", "")] rfl,
   empty_tunnel_key_defaults.2.2 0 0 0 0 [("X-Tunnel-Key", "")] ["default"] []
     rfl⟩

/-! ## C10: at most one head per connection (httpResponseWriter) -/

/-- An operation a handler may perform on the response writer. -/
inductive WriterOp where
  | writeHeader (code : Nat)
  | write (data : List Nat)
deriving DecidableEq, Repr

/-- Apply one operation. -/
def applyWriterOp (w : httpResponseWriter) : WriterOp → httpResponseWriter
  | .writeHeader code => w.writeHeader code
  | .write data => w.write data

/-- Apply a sequence of operations, left to right. -/
def applyWriterOps (w : httpResponseWriter) : List WriterOp → httpResponseWriter
  | [] => w
  | op :: ops => applyWriterOps (applyWriterOp w op) ops

/-- Whether an output item is a status line (the start of a head block). -/
def isHead : OutItem → Bool
  | .statusLine _ => true
  | _ => false

/-- Number of status-line/header blocks among the items on the wire. -/
def countHeads (out : List OutItem) : Nat := (out.filter isHead).length

theorem countHeads_append (a b : List OutItem) :
    countHeads (a ++ b) = countHeads a + countHeads b := by
  simp [countHeads, List.filter_append]

theorem countHeads_renderHeaderLines (h : List (String × List String)) :
    countHeads (renderHeaderLines h) = 0 := by
  simp only [countHeads, List.length_eq_zero, List.filter_eq_nil_iff]
  intro x hx
  simp only [renderHeaderLines, List.mem_flatten, List.mem_map] at hx
  obtain ⟨l, ⟨kv, _, rfl⟩, hxl⟩ := hx
  obtain ⟨v, _, rfl⟩ := List.mem_map.mp hxl
  simp [isHead]

/-- The writer invariant: the wire carries exactly one head iff
`headerWritten`, none otherwise. -/
def headInv (w : httpResponseWriter) : Prop :=
  countHeads w.out = if w.headerWritten then 1 else 0

theorem countHeads_statusLine_cons (c : Nat) (l : List OutItem) :
    countHeads (OutItem.statusLine c :: l) = countHeads l + 1 := by
  simp [countHeads, List.filter_cons, isHead]

theorem countHeads_blankLine_single : countHeads [OutItem.blankLine] = 0 := rfl

theorem countHeads_body_single (d : List Nat) :
    countHeads [OutItem.body d] = 0 := by
  simp [countHeads, List.filter_cons, isHead]

theorem headInv_writeHeader (w : httpResponseWriter) (code : Nat)
    (h : headInv w) : headInv (w.writeHeader code) := by
  unfold headInv at *
  unfold httpResponseWriter.writeHeader
  by_cases hw : w.headerWritten
  · simpa [hw] using h
  · have h0 : countHeads w.out = 0 := by simpa [hw] using h
    simp only [hw, Bool.false_eq_true, if_false]
    show countHeads (w.out ++ OutItem.statusLine code ::
        (renderHeaderLines w.header ++ [OutItem.blankLine])) =
      if true = true then 1 else 0
    rw [countHeads_append, countHeads_statusLine_cons, countHeads_append,
      countHeads_renderHeaderLines, countHeads_blankLine_single, h0]
    simp

theorem headInv_write (w : httpResponseWriter) (data : List Nat)
    (h : headInv w) : headInv (w.write data) := by
  unfold httpResponseWriter.write
  by_cases hw : w.headerWritten
  · simp only [hw, if_true]
    unfold headInv at *
    simp [countHeads_append, countHeads_body_single, h, hw]
  · simp only [hw, Bool.false_eq_true, if_false]
    have h2 := headInv_writeHeader w 200 h
    have hw2 : (w.writeHeader 200).headerWritten = true := by
      simp [httpResponseWriter.writeHeader, hw]
    unfold headInv at h2 ⊢
    simp [countHeads_append, countHeads_body_single, h2, hw2]

theorem headInv_ops (ops : List WriterOp) (w : httpResponseWriter)
    (h : headInv w) : headInv (applyWriterOps w ops) := by
  induction ops generalizing w with
  | nil => exact h
  | cons op ops ih =>
    apply ih
    cases op with
    | writeHeader code => exact headInv_writeHeader w code h
    | write data => exact headInv_write w data h

/-- C10: on the raw-connection response writer, at most one status/header
block is ever written to the socket: any later `WriteHeader` is a complete
no-op (the writer state, including the wire output, is unchanged); a
`Write` before any `WriteHeader` first emits a `200` head and then the body
bytes; and over any sequence of operations starting from a writer whose
wire is head-free, the output carries at most one head. -/
theorem response_writer_single_head :
    (∀ (w : httpResponseWriter) (code : Nat), w.headerWritten = true →
      w.writeHeader code = w) ∧
    (∀ (w : httpResponseWriter) (data : List Nat), w.headerWritten = false →
      (w.write data).statusCode = 200 ∧
      (w.write data).out =
        w.out ++ OutItem.statusLine 200 ::
          (renderHeaderLines w.header ++ [OutItem.blankLine]) ++
          [OutItem.body data]) ∧
    (∀ (w : httpResponseWriter) (ops : List WriterOp),
      w.headerWritten = false → countHeads w.out = 0 →
      countHeads (applyWriterOps w ops).out ≤ 1) := by
  refine ⟨?_, ?_, ?_⟩
  · intro w code hw
    simp [httpResponseWriter.writeHeader, hw]
  · intro w data hw
    simp [httpResponseWriter.write, httpResponseWriter.writeHeader, hw]
  · intro w ops hw hc
    have h0 : headInv w := by simp [headInv, hw, hc]
    have h1 := headInv_ops ops w h0
    unfold headInv at h1
    rw [h1]
    by_cases hfin : (applyWriterOps w ops).headerWritten <;> simp [hfin]

/-- Closed witness for C10: a concrete no-op second `WriteHeader`, a `Write`
on a fresh writer, and a head count over a mixed operation sequence. -/
theorem response_writer_single_head_witness :
    ((httpResponseWriter.fresh.writeHeader 200).writeHeader 404 =
      httpResponseWriter.fresh.writeHeader 200) ∧
    (httpResponseWriter.fresh.write [1]).statusCode = 200 ∧
    countHeads (applyWriterOps httpResponseWriter.fresh
      [.write [1], .writeHeader 404, .writeHeader 500, .write [2]]).out ≤ 1 :=
  ⟨response_writer_single_head.1 (httpResponseWriter.fresh.writeHeader 200) 404
      rfl,
   (response_writer_single_head.2.1 httpResponseWriter.fresh [1] rfl).1,
   response_writer_single_head.2.2 httpResponseWriter.fresh
      [.write [1], .writeHeader 404, .writeHeader 500, .write [2]] rfl rfl⟩
